import Mathlib

/-!
Shallow embedding of the `Logtopus` logging facade (file `index.js` of the
logtopus package): the level table, threshold handling (`setLevel`,
`getLevel`), the backend registry (`addLogger`, `removeLogger`), the
dispatch entry point (`writeLog`) with its ANSI-stripping of plain
renderings and its fan-out over registered backends, `flush`, and the
constructor with its environment-derived default level.

JavaScript conventions are made explicit: optional / absent arguments are
`Option`s, string truthiness is `s ≠ ""`, numeric truthiness is `n ≠ 0`,
a thrown exception is an `Except.error`, and the `Map` backing the backend
registry is an association list in insertion order.
-/

namespace Logtopus

/-- Errors a facade call can throw: `invalidLevel` models
`throw new Error('Invalid log level argument!')` in `setLevel`;
`referenceError` models the `ReferenceError` raised by evaluating the
undefined variable `err` in `addLogger`'s duplicate-name debug branch. -/
inductive JsErr where
  | invalidLevel
  | referenceError
deriving DecidableEq, Repr

/-- The log event record built by `writeLog` and passed to each backend's
`log`: `{ type, msg, cmsg, data, time, uptime }`. -/
structure LogEvent where
  type : String
  msg : String
  cmsg : String
  data : List String
  time : Nat
  uptime : Nat
deriving DecidableEq, Repr

/-- A registered backend instance. `ctorId` identifies the logger class it
was constructed from; `throwsOnLog` says whether its `log(event)` raises;
`hasFlush` whether it exposes a `flush` capability and `flushFails` whether
that flush rejects; `logged` is the list of events its `log` has recorded. -/
structure Backend where
  ctorId : Nat
  throwsOnLog : Bool
  hasFlush : Bool
  flushFails : Bool
  logged : List LogEvent
deriving DecidableEq, Repr

/-- A logger class (constructor) as passed to `addLogger`; constructing it
yields a fresh `Backend` with an empty `logged` record. -/
structure LoggerClass where
  ctorId : Nat
  throwsOnLog : Bool
  hasFlush : Bool
  flushFails : Bool
deriving DecidableEq, Repr

/-- `new LoggerClass(conf)` : a fresh backend instance. -/
def construct (cls : LoggerClass) : Backend :=
  { ctorId := cls.ctorId
    throwsOnLog := cls.throwsOnLog
    hasFlush := cls.hasFlush
    flushFails := cls.flushFails
    logged := [] }

/-- The state of a `Logtopus` instance: `__logLevel`, `debugMode`,
`__environmentDefault` and the `__logger` Map (insertion-ordered). -/
structure LState where
  logLevel : Nat
  debugMode : Bool
  environmentDefault : Nat
  registry : List (String × Backend)
deriving DecidableEq, Repr

/-- `this.__definedLogLevels`, in declaration order. -/
def definedLogLevels : List (String × Nat) :=
  [("error", 1), ("warn", 2), ("sys", 3), ("req", 4),
   ("res", 5), ("info", 6), ("debug", 7)]

/-- `this.__definedLogLevels[name]`: the rank of a level name, `none` for an
unrecognized name (JS: `undefined`). -/
def rankOf (name : String) : Option Nat :=
  (definedLogLevels.find? (fun p => p.1 == name)).map (fun p => p.2)

/-- JS truthiness of an optional string argument: `undefined`/`null` and the
empty string are falsy. -/
def truthyOptStr : Option String → Bool
  | none => false
  | some s => !(s == "")

/-- JS truthiness of a looked-up rank: `undefined` and `0` are falsy. -/
def truthyOptNat : Option Nat → Bool
  | none => false
  | some n => !(n == 0)

/-- `setLevel(level)`: with a truthy recognized name, set `__logLevel` to its
rank; with a truthy unrecognized name, throw `Invalid log level argument!`;
with a falsy argument (omitted or empty string), set the environment
default. -/
def setLevel (st : LState) (level : Option String) : Except JsErr LState :=
  if truthyOptStr level then
    match rankOf (level.getD "") with
    | some r =>
        if r == 0 then .error .invalidLevel
        else .ok { st with logLevel := r }
    | none => .error .invalidLevel
  else
    .ok { st with logLevel := st.environmentDefault }

/-- `getLevel()`: the first level name (in table order) whose rank equals the
current `__logLevel`; `none` (JS: `undefined`) when no name matches. -/
def getLevel (st : LState) : Option String :=
  (definedLogLevels.find? (fun p => p.2 == st.logLevel)).map (fun p => p.1)

/-- `this.__logger.has(name)` for the association-list registry. -/
def hasKey (reg : List (String × Backend)) (name : String) : Bool :=
  reg.any (fun p => p.1 == name)

/-- `addLogger(name, LoggerClass)`: on a duplicate name it does not construct
or store anything; in debug mode the duplicate branch evaluates the
undefined variable `err` (template `${err.stack}`), raising a
`ReferenceError`. On a fresh name it constructs one instance and appends it
to the registry (JS `Map.set` on a new key appends in insertion order). -/
def addLogger (st : LState) (name : String) (cls : LoggerClass) :
    Except JsErr LState :=
  if hasKey st.registry name then
    if st.debugMode then .error .referenceError
    else .ok st
  else
    .ok { st with registry := st.registry ++ [(name, construct cls)] }

/-- `removeLogger(name)`: `this.__logger.delete(name)`; removing an absent
key is a no-op and never fails. -/
def removeLogger (st : LState) (name : String) : LState :=
  { st with registry := st.registry.filter (fun p => !(p.1 == name)) }

/-- The message argument of `writeLog`: either a plain string or an external
colorfy-capable object. For the latter, `writeLog` snapshots and restores
the object's internal text buffer between the two `colorfy` calls, so both
renderings are computed from the original text; the object is therefore
represented by those two rendering results. -/
inductive JsMsg where
  | str (s : String)
  | colorfyObj (plainRender : String) (coloredRender : String)
deriving DecidableEq, Repr

/-- JS truthiness of the `msg` argument: `undefined` and `""` are falsy,
every other string and every object is truthy. -/
def truthyOptMsg : Option JsMsg → Bool
  | none => false
  | some (.str s) => !(s == "")
  | some (.colorfyObj _ _) => true

/-- `if (!msg) { msg = 'No message' }`. -/
def normMsg (msg : Option JsMsg) : JsMsg :=
  if truthyOptMsg msg then msg.getD (.str "No message")
  else .str "No message"

/-- Matcher for the tail of the ANSI regex `\u001b\[(\d+;)*\d*m` after the
`ESC [` prefix: consumes semicolon-separated digit runs up to a final `m`,
returning the remaining input on a match. `inRun` is true right after at
least one digit of the current run. -/
def ansiScan : Bool → List Char → Option (List Char)
  | _, [] => none
  | inRun, c :: cs =>
    if c == 'm' then some cs
    else if c == ';' then
      if inRun then ansiScan false cs else none
    else if c.isDigit then ansiScan true cs
    else none

/-- Fuelled worker for the global replacement
`msg.replace(/\u001b\[(\d+;)*\d*m/g, '')`: scans left to right, deleting
each match of the escape-sequence pattern. -/
def stripAnsiGo : Nat → List Char → List Char
  | 0, cs => cs
  | _ + 1, [] => []
  | fuel + 1, c :: cs =>
    if c == '\x1b' then
      match cs with
      | '[' :: cs' =>
        match ansiScan false cs' with
        | some rest => stripAnsiGo fuel rest
        | none => c :: stripAnsiGo fuel cs
      | _ => c :: stripAnsiGo fuel cs
    else c :: stripAnsiGo fuel cs

/-- `msg.replace(/\u001b\[(\d+;)*\d*m/g, '')`: strip every ANSI color/style
escape sequence from a string. -/
def stripAnsi (s : String) : String :=
  ⟨stripAnsiGo (s.data.length + 1) s.data⟩

/-- Fan the event out over the registry in insertion order
(`this.__logger.forEach(logger => logger.log({...}))`). Returns the updated
registry, the names of the backends whose `log` was invoked, and whether a
backend's `log` raised. A raising backend aborts the `forEach`: backends
after it are not invoked, and the exception propagates. -/
def fanOut (ev : LogEvent) :
    List (String × Backend) → List (String × Backend) × List String × Bool
  | [] => ([], [], false)
  | (n, b) :: rest =>
    if b.throwsOnLog then ((n, b) :: rest, [n], true)
    else
      let out := fanOut ev rest
      ((n, { b with logged := b.logged ++ [ev] }) :: out.1,
        n :: out.2.1, out.2.2)

/-- The observable outcome of one `writeLog` call: the post-state, the event
record it constructed (if any), the backends invoked, and whether a backend
exception escaped to the caller. -/
structure WriteResult where
  st : LState
  event : Option LogEvent
  invoked : List String
  threw : Bool
deriving DecidableEq, Repr

/-- The event record `writeLog` builds once the threshold guard has passed:
the message is defaulted, the plain rendering strips ANSI escapes from a
string message (a colorfy-capable message supplies both renderings), and
the decorated rendering keeps them. -/
def mkEvent (type : String) (msg : Option JsMsg) (data : List String)
    (time : Nat) (uptime : Nat) : LogEvent :=
  let m := normMsg msg
  let rendered :=
    match m with
    | .colorfyObj plainR coloredR => (plainR, coloredR)
    | .str s => (stripAnsi s, s)
  { type := type, msg := rendered.1, cmsg := rendered.2,
    data := data, time := time, uptime := uptime }

/-- `writeLog(type, msg, ...data)`: look up the rank of `type`; if it is
truthy and above the threshold, return immediately (no event constructed,
no backend invoked). Otherwise build the event with the wall-clock `time`
and process `uptime` captured once, and fan it out to every registered
backend. -/
def writeLog (st : LState) (type : String) (msg : Option JsMsg)
    (data : List String) (time : Nat) (uptime : Nat) : WriteResult :=
  let curLevel := rankOf type
  if truthyOptNat curLevel && decide (curLevel.getD 0 > st.logLevel) then
    ⟨st, none, [], false⟩
  else
    let ev := mkEvent type msg data time uptime
    let out := fanOut ev st.registry
    ⟨{ st with registry := out.1 }, some ev, out.2.1, out.2.2⟩

/-- The per-backend flush results gathered by `flush()`: one entry
`(name, rejects)` per registered backend exposing a `flush` capability;
backends without the capability are skipped. -/
def flushArr (st : LState) : List (String × Bool) :=
  st.registry.filterMap
    (fun p => if p.2.hasFlush then some (p.1, p.2.flushFails) else none)

/-- `flush()`: `Promise.all` over the eagerly started per-backend flushes —
it rejects iff some started flush rejects. -/
def flush (st : LState) : Except Unit Unit :=
  if (flushArr st).any (fun q => q.2) then .error () else .ok ()

/-- `__environmentDefault` computed from `process.env.NODE_ENV`. -/
def environmentDefault (nodeEnv : Option String) : Nat :=
  if nodeEnv == some "production" then 3
  else if nodeEnv == some "staging" then 5
  else if nodeEnv == some "qa" then 5
  else if nodeEnv == some "test" then 1
  else 6

/-- The relevant process environment at construction time. -/
structure Env where
  nodeEnv : Option String
  logtopusDebug : Bool
deriving DecidableEq, Repr

/-- The construction config `{ level?, debugMode?, logger? }`; the backend
configs themselves are opaque here, so the `logger` map is kept as its list
of keys. -/
structure Conf where
  level : Option Nat
  debugMode : Bool
  loggerKeys : Option (List String)
deriving DecidableEq, Repr

/-- `config(conf)`'s substitution of the default logger map
`{ console: …, file: … }` when `conf.logger` is absent. -/
def configLoggerKeys (c : Conf) : List String :=
  c.loggerKeys.getD ["console", "file"]

/-- `loggerName.replace(/[A-Z]/g, match => '-' + match.toLowerCase())`. -/
def hyphenate (s : String) : String :=
  ⟨s.data.foldr
    (fun c acc => if c.isUpper then '-' :: c.toLower :: acc else c :: acc) []⟩

/-- `loadLogger()`: for each configured backend name, resolve
`logtopus-<hyphenated>-logger` through the injected module resolver and
`addLogger` it; any error (resolution failure or the `addLogger` throw) is
caught and ignored so that one broken backend never aborts loading of the
rest. -/
def loadLogger (st : LState) (keys : List String)
    (resolver : String → Option LoggerClass) : LState :=
  keys.foldl
    (fun s k =>
      match resolver ("logtopus-" ++ hyphenate k ++ "-logger") with
      | some cls =>
        match addLogger s k cls with
        | .ok s' => s'
        | .error _ => s
      | none => s)
    st

/-- The constructor: `__logLevel = conf.level || 3`, `debugMode` from config
or the `LOGTOPUS_DEBUG` environment toggle, `__environmentDefault` from
`NODE_ENV`, then `loadLogger()` over the configured backend names. -/
def mkLogtopus (conf : Conf) (env : Env)
    (resolver : String → Option LoggerClass) : LState :=
  let base : LState :=
    { logLevel :=
        match conf.level with
        | some n => if n == 0 then 3 else n
        | none => 3
      debugMode := conf.debugMode || env.logtopusDebug
      environmentDefault := environmentDefault env.nodeEnv
      registry := [] }
  loadLogger base (configLoggerKeys conf) resolver

end Logtopus

namespace Logtopus

/-- Per-entry facts about the level table, used to compute with an abstract
recognized name: names are non-empty, ranks are non-zero, `rankOf` recovers
each entry, and looking the rank back up (as `getLevel` does) recovers the
name. -/
theorem table_facts : ∀ q ∈ definedLogLevels,
    (q.1 == "") = false ∧ (q.2 == 0) = false ∧ rankOf q.1 = some q.2 ∧
    (definedLogLevels.find? (fun x => x.2 == q.2)).map (fun x => x.1) =
      some q.1 := by
  decide

/-- A successful `rankOf` lookup comes from an entry of the table. -/
theorem rankOf_mem {name : String} {r : Nat} (h : rankOf name = some r) :
    (name, r) ∈ definedLogLevels := by
  unfold rankOf at h
  rcases Option.map_eq_some'.mp h with ⟨q, hfind, hsnd⟩
  have hfst : q.1 = name := by simpa using List.find?_some hfind
  have hmem := List.mem_of_find?_eq_some hfind
  obtain ⟨a, b⟩ := q
  simp only at hfst hsnd
  subst hfst
  subst hsnd
  exact hmem

end Logtopus

namespace Logtopus

/-- C9: for every recognized level name `n`, `setLevel(n)` followed by
`getLevel()` returns `n`: the level table is a bijection between the seven
names and the ranks 1–7, and `getLevel` returns the (unique) name whose
rank equals the current threshold. -/
theorem setLevel_getLevel_roundtrip (st : LState) (name : String) (r : Nat)
    (h : rankOf name = some r) :
    (setLevel st (some name) = .ok { st with logLevel := r } ∧
      getLevel { st with logLevel := r } = some name) ∧
    definedLogLevels.map (fun p => p.1) =
      ["error", "warn", "sys", "req", "res", "info", "debug"] ∧
    definedLogLevels.map (fun p => p.2) = [1, 2, 3, 4, 5, 6, 7] ∧
    (definedLogLevels.map (fun p => p.1)).Nodup ∧
    (definedLogLevels.map (fun p => p.2)).Nodup := by
  have hmem := rankOf_mem h
  obtain ⟨hne, hnz, -, hback⟩ := table_facts (name, r) hmem
  refine ⟨⟨?_, ?_⟩, by decide, by decide, by decide, by decide⟩
  · simp [setLevel, truthyOptStr, hne, h, hnz]
  · simp only [getLevel]
    exact hback

/-- Witness for C9 at the concrete name `debug` (rank 7). -/
theorem setLevel_getLevel_roundtrip_witness :
    rankOf "debug" = some 7 ∧
    setLevel ⟨3, false, 6, []⟩ (some "debug") = .ok ⟨7, false, 6, []⟩ ∧
    getLevel ⟨7, false, 6, []⟩ = some "debug" := by
  have := (setLevel_getLevel_roundtrip ⟨3, false, 6, []⟩ "debug" 7 rfl).1
  exact ⟨rfl, this.1, this.2⟩

/-- C2 counterexample: the empty string is a supplied name outside the level
table, yet `setLevel('')` raises nothing — the `if (level)` truthiness test
treats it as an omitted argument, so the call succeeds and moves the
threshold (here from 7 to the environment default 6). -/
theorem setLevel_empty_name_counterexample :
    rankOf "" = none ∧
    setLevel ⟨7, false, 6, []⟩ (some "") = .ok ⟨6, false, 6, []⟩ ∧
    (6 : Nat) ≠ 7 := ⟨rfl, rfl, by decide⟩

/-- C2 (amended): for every name in the level table, `setLevel(name)` sets
the threshold to its rank; for every supplied *non-empty* name not in the
table it throws `Invalid log level argument!` (leaving the state untouched,
as the throw precedes any assignment); a supplied empty (falsy) name is
treated as an omitted argument and sets the environment default. -/
theorem setLevel_spec (st : LState) (name : String) :
    (∀ r, rankOf name = some r →
      setLevel st (some name) = .ok { st with logLevel := r }) ∧
    (name ≠ "" → rankOf name = none →
      setLevel st (some name) = .error .invalidLevel) ∧
    setLevel st (some "") = .ok { st with logLevel := st.environmentDefault }
    := by
  refine ⟨?_, ?_, rfl⟩
  · intro r h
    have hmem := rankOf_mem h
    obtain ⟨hne, hnz, -, -⟩ := table_facts (name, r) hmem
    simp [setLevel, truthyOptStr, hne, h, hnz]
  · intro hne h
    have hne' : (name == "") = false := by simpa using hne
    simp [setLevel, truthyOptStr, hne', h]

/-- Witness for C2 (amended) at `warn` (rank 2) and the unrecognized name
`banana`. -/
theorem setLevel_spec_witness :
    setLevel ⟨7, false, 6, []⟩ (some "warn") = .ok ⟨2, false, 6, []⟩ ∧
    setLevel ⟨7, false, 6, []⟩ (some "banana") = .error .invalidLevel := by
  have h1 := (setLevel_spec ⟨7, false, 6, []⟩ "warn").1 2 rfl
  have h2 := (setLevel_spec ⟨7, false, 6, []⟩ "banana").2.1 (by decide) rfl
  exact ⟨h1, h2⟩

/-- C3 (code behavior at the failing input): with a first backend whose
`log` raises, dispatching an above-threshold event invokes only that first
backend — the exception escapes `writeLog` to the caller (`threw = true`),
the second backend is never invoked, and no backend records the event.
The fan-out `forEach` has no per-backend catch, so failure isolation does
not hold in the code. -/
theorem writeLog_throw_aborts_fanout :
    (writeLog ⟨7, false, 6,
        [("a", construct ⟨1, true, false, false⟩),
         ("b", construct ⟨2, false, false, false⟩)]⟩
        "error" (some (.str "boom")) [] 0 0).invoked = ["a"] ∧
    (writeLog ⟨7, false, 6,
        [("a", construct ⟨1, true, false, false⟩),
         ("b", construct ⟨2, false, false, false⟩)]⟩
        "error" (some (.str "boom")) [] 0 0).threw = true ∧
    (writeLog ⟨7, false, 6,
        [("a", construct ⟨1, true, false, false⟩),
         ("b", construct ⟨2, false, false, false⟩)]⟩
        "error" (some (.str "boom")) [] 0 0).st.registry =
      [("a", construct ⟨1, true, false, false⟩),
       ("b", construct ⟨2, false, false, false⟩)] :=
  ⟨rfl, rfl, rfl⟩

/-- C4 (code behavior at the failing input): a duplicate `addLogger` with
diagnostics (debug mode) enabled evaluates the undefined variable `err` and
throws a `ReferenceError`; with diagnostics disabled the duplicate add is
the claimed silent idempotent no-op that keeps the original instance. -/
theorem addLogger_duplicate_behavior :
    addLogger ⟨3, true, 6, [("x", construct ⟨1, false, false, false⟩)]⟩
        "x" ⟨2, false, false, false⟩ = .error .referenceError ∧
    addLogger ⟨3, false, 6, [("x", construct ⟨1, false, false, false⟩)]⟩
        "x" ⟨2, false, false, false⟩ =
      .ok ⟨3, false, 6, [("x", construct ⟨1, false, false, false⟩)]⟩ :=
  ⟨rfl, rfl⟩

end Logtopus

namespace Logtopus

/-- When no registered backend's `log` raises, the fan-out reaches every
backend in registry order: each records the event, every name is invoked,
and no exception escapes. -/
theorem fanOut_no_throw (ev : LogEvent) (reg : List (String × Backend))
    (hok : ∀ p ∈ reg, p.2.throwsOnLog = false) :
    fanOut ev reg =
      (reg.map (fun p => (p.1, { p.2 with logged := p.2.logged ++ [ev] })),
        reg.map (fun p => p.1), false) := by
  induction reg with
  | nil => rfl
  | cons hd tl ih =>
    obtain ⟨n, b⟩ := hd
    have h1 : b.throwsOnLog = false := hok (n, b) (List.mem_cons_self _ _)
    have h2 := ih (fun p hp => hok p (List.mem_cons_of_mem _ hp))
    simp [fanOut, h1, h2]

/-- When the threshold guard does not fire and no backend throws, `writeLog`
delivers the constructed event to every registered backend. -/
theorem writeLog_emit (st : LState) (type : String) (msg : Option JsMsg)
    (data : List String) (time uptime : Nat)
    (hok : ∀ p ∈ st.registry, p.2.throwsOnLog = false)
    (hguard : (truthyOptNat (rankOf type) &&
      decide ((rankOf type).getD 0 > st.logLevel)) = false) :
    writeLog st type msg data time uptime =
      ⟨{ st with registry := st.registry.map (fun p =>
            (p.1, { p.2 with logged :=
              p.2.logged ++ [mkEvent type msg data time uptime] })) },
        some (mkEvent type msg data time uptime),
        st.registry.map (fun p => p.1), false⟩ := by
  simp only [writeLog]
  rw [hguard]
  simp only [Bool.false_eq_true, if_false]
  rw [fanOut_no_throw _ _ hok]

/-- C1: for every recognized level name with rank `r` and threshold `T`,
`writeLog` delivers the event to every registered backend iff `r ≤ T`; when
`r > T` it returns immediately with the state unchanged, no event record
constructed and no backend invoked; for an unrecognized type name the event
is always delivered to every registered backend. (Backends are assumed
well-behaved: a raising backend is the separate failure-isolation claim.) -/
theorem writeLog_threshold (st : LState) (type : String) (msg : Option JsMsg)
    (data : List String) (time uptime : Nat)
    (hok : ∀ p ∈ st.registry, p.2.throwsOnLog = false) :
    (∀ r, rankOf type = some r →
      (r ≤ st.logLevel →
        writeLog st type msg data time uptime =
          ⟨{ st with registry := st.registry.map (fun p =>
                (p.1, { p.2 with logged :=
                  p.2.logged ++ [mkEvent type msg data time uptime] })) },
            some (mkEvent type msg data time uptime),
            st.registry.map (fun p => p.1), false⟩) ∧
      (st.logLevel < r →
        writeLog st type msg data time uptime = ⟨st, none, [], false⟩)) ∧
    (rankOf type = none →
      writeLog st type msg data time uptime =
        ⟨{ st with registry := st.registry.map (fun p =>
              (p.1, { p.2 with logged :=
                p.2.logged ++ [mkEvent type msg data time uptime] })) },
          some (mkEvent type msg data time uptime),
          st.registry.map (fun p => p.1), false⟩) := by
  constructor
  · intro r h
    constructor
    · intro hle
      apply writeLog_emit st type msg data time uptime hok
      have hdec : decide (r > st.logLevel) = false := by
        apply decide_eq_false
        omega
      simp [h, truthyOptNat, hdec]
    · intro hgt
      have hnz : (r == 0) = false := (table_facts (type, r) (rankOf_mem h)).2.1
      have hg : (truthyOptNat (rankOf type) &&
          decide ((rankOf type).getD 0 > st.logLevel)) = true := by
        have hdec : decide (r > st.logLevel) = true := by
          apply decide_eq_true
          omega
        simp [h, truthyOptNat, hnz, hdec]
      simp only [writeLog]
      rw [hg]
      rfl
  · intro h
    apply writeLog_emit st type msg data time uptime hok
    simp [h, truthyOptNat]

/-- Witness for C1: threshold 3 with one registered backend — an `error`
event (rank 1 ≤ 3) reaches the backend, a `debug` event (rank 7 > 3) is a
pure no-op, and an unrecognized type is always delivered. -/
theorem writeLog_threshold_witness :
    writeLog ⟨3, false, 6, [("a", construct ⟨1, false, false, false⟩)]⟩
        "error" (some (.str "y")) [] 0 0 =
      ⟨⟨3, false, 6, [("a", { construct ⟨1, false, false, false⟩ with
          logged := [mkEvent "error" (some (.str "y")) [] 0 0] })]⟩,
        some (mkEvent "error" (some (.str "y")) [] 0 0), ["a"], false⟩ ∧
    writeLog ⟨3, false, 6, [("a", construct ⟨1, false, false, false⟩)]⟩
        "debug" (some (.str "x")) [] 0 0 =
      ⟨⟨3, false, 6, [("a", construct ⟨1, false, false, false⟩)]⟩,
        none, [], false⟩ ∧
    writeLog ⟨3, false, 6, [("a", construct ⟨1, false, false, false⟩)]⟩
        "frobnicate" none [] 0 0 =
      ⟨⟨3, false, 6, [("a", { construct ⟨1, false, false, false⟩ with
          logged := [mkEvent "frobnicate" none [] 0 0] })]⟩,
        some (mkEvent "frobnicate" none [] 0 0), ["a"], false⟩ := by
  refine ⟨?_, ?_, ?_⟩
  · have := ((writeLog_threshold
        ⟨3, false, 6, [("a", construct ⟨1, false, false, false⟩)]⟩
        "error" (some (.str "y")) [] 0 0 (by decide)).1 1 rfl).1 (by decide)
    simpa using this
  · exact ((writeLog_threshold
        ⟨3, false, 6, [("a", construct ⟨1, false, false, false⟩)]⟩
        "debug" (some (.str "x")) [] 0 0 (by decide)).1 7 rfl).2 (by decide)
  · have := (writeLog_threshold
        ⟨3, false, 6, [("a", construct ⟨1, false, false, false⟩)]⟩
        "frobnicate" none [] 0 0 (by decide)).2 rfl
    simpa using this

end Logtopus

namespace Logtopus

/-- A module resolver that finds no backend module (every `superimport`
fails). -/
def noResolver : String → Option LoggerClass := fun _ => none

/-- A successful `addLogger` changes nothing but the registry. -/
theorem addLogger_fields (st : LState) (name : String) (cls : LoggerClass)
    (st' : LState) (h : addLogger st name cls = .ok st') :
    st'.logLevel = st.logLevel ∧ st'.debugMode = st.debugMode ∧
    st'.environmentDefault = st.environmentDefault := by
  unfold addLogger at h
  split at h
  · split at h
    · cases h
    · cases h
      exact ⟨rfl, rfl, rfl⟩
  · cases h
    exact ⟨rfl, rfl, rfl⟩

/-- One step of `loadLogger`: resolve the module and try `addLogger`,
swallowing any error. -/
theorem loadLogger_step (st : LState) (k : String) (ks : List String)
    (resolver : String → Option LoggerClass) :
    loadLogger st (k :: ks) resolver =
      loadLogger
        (match resolver ("logtopus-" ++ hyphenate k ++ "-logger") with
          | some cls =>
            match addLogger st k cls with
            | .ok s' => s'
            | .error _ => st
          | none => st) ks resolver := rfl

/-- `loadLogger` touches only the registry: threshold, debug flag and the
stored environment default survive backend loading. -/
theorem loadLogger_fields (keys : List String) (st : LState)
    (resolver : String → Option LoggerClass) :
    (loadLogger st keys resolver).logLevel = st.logLevel ∧
    (loadLogger st keys resolver).debugMode = st.debugMode ∧
    (loadLogger st keys resolver).environmentDefault =
      st.environmentDefault := by
  induction keys generalizing st with
  | nil => exact ⟨rfl, rfl, rfl⟩
  | cons k ks ih =>
    rw [loadLogger_step]
    rcases hres : resolver ("logtopus-" ++ hyphenate k ++ "-logger") with
      _ | cls
    · simpa [hres] using ih st
    · rcases hadd : addLogger st k cls with e | st'
      · simpa [hres, hadd] using ih st
      · have hf := addLogger_fields st k cls st' hadd
        have := ih st'
        simp only [hres, hadd]
        exact ⟨this.1.trans hf.1, this.2.1.trans hf.2.1,
          this.2.2.trans hf.2.2⟩

end Logtopus

namespace Logtopus

/-- C5: `setLevel()` with no argument sets the threshold to the stored
environment default, regardless of the current threshold; the default
stored at construction is derived from `NODE_ENV` as production→3,
staging→5, qa→5, test→1 and 6 for any other or absent tag. -/
theorem setLevel_no_arg_default (st : LState) (conf : Conf) (env : Env)
    (resolver : String → Option LoggerClass) :
    setLevel st none = .ok { st with logLevel := st.environmentDefault } ∧
    (mkLogtopus conf env resolver).environmentDefault =
      environmentDefault env.nodeEnv ∧
    environmentDefault (some "production") = 3 ∧
    environmentDefault (some "staging") = 5 ∧
    environmentDefault (some "qa") = 5 ∧
    environmentDefault (some "test") = 1 ∧
    (∀ e : Option String, e ≠ some "production" → e ≠ some "staging" →
      e ≠ some "qa" → e ≠ some "test" → environmentDefault e = 6) := by
  refine ⟨rfl, ?_, rfl, rfl, rfl, rfl, ?_⟩
  · exact (loadLogger_fields (configLoggerKeys conf) _ resolver).2.2
  · intro e h1 h2 h3 h4
    simp [environmentDefault, h1, h2, h3, h4]

/-- Witness for C5: a no-argument `setLevel` overwrites an explicit
threshold 7 with the stored default 3, and an absent `NODE_ENV` defaults
to 6. -/
theorem setLevel_no_arg_default_witness :
    setLevel ⟨7, false, 3, []⟩ none = .ok ⟨3, false, 3, []⟩ ∧
    environmentDefault none = 6 := by
  have h := setLevel_no_arg_default ⟨7, false, 3, []⟩ ⟨none, false, some []⟩
    ⟨none, false⟩ noResolver
  exact ⟨h.1, h.2.2.2.2.2.2 none (by decide) (by decide) (by decide)
    (by decide)⟩

/-- C10: a construction config without a `level` (or with the falsy level
0) yields an initial threshold of 3 (`sys`), independent of `NODE_ENV`;
the environment-derived default only takes effect after a later
no-argument `setLevel()`. -/
theorem constructor_default_level (conf : Conf) (env : Env)
    (resolver : String → Option LoggerClass)
    (h : conf.level = none ∨ conf.level = some 0) :
    (mkLogtopus conf env resolver).logLevel = 3 ∧
    setLevel (mkLogtopus conf env resolver) none =
      .ok { mkLogtopus conf env resolver with
              logLevel := environmentDefault env.nodeEnv } := by
  have hf := loadLogger_fields (configLoggerKeys conf)
    { logLevel :=
        match conf.level with
        | some n => if n == 0 then 3 else n
        | none => 3
      debugMode := conf.debugMode || env.logtopusDebug
      environmentDefault := environmentDefault env.nodeEnv
      registry := [] } resolver
  constructor
  · rcases h with h | h
    · exact hf.1.trans (by rw [h])
    · exact hf.1.trans (by rw [h]; rfl)
  · have h2 : (mkLogtopus conf env resolver).environmentDefault =
        environmentDefault env.nodeEnv := hf.2.2
    rw [← h2]
    rfl

/-- Witness for C10: an absent `level` under `NODE_ENV=production` still
constructs with threshold 3; the production default 3 arrives only through
`setLevel()`. -/
theorem constructor_default_level_witness :
    (mkLogtopus ⟨none, false, some []⟩ ⟨some "production", false⟩
      noResolver).logLevel = 3 ∧
    setLevel (mkLogtopus ⟨none, false, some []⟩ ⟨some "production", false⟩
        noResolver) none =
      .ok { mkLogtopus ⟨none, false, some []⟩ ⟨some "production", false⟩
              noResolver with
              logLevel := environmentDefault (some "production") } :=
  constructor_default_level ⟨none, false, some []⟩ ⟨some "production", false⟩
    noResolver (Or.inl rfl)

end Logtopus

namespace Logtopus

/-- The replacement scan leaves a string without the escape character
untouched. -/
theorem stripAnsiGo_no_esc (fuel : Nat) :
    ∀ cs : List Char, cs.length ≤ fuel → '\x1b' ∉ cs →
      stripAnsiGo fuel cs = cs := by
  induction fuel with
  | zero => intro cs _ _; rfl
  | succ n ih =>
    intro cs hlen hmem
    cases cs with
    | nil => rfl
    | cons c cs' =>
      have hc : (c == '\x1b') = false := by
        simp only [beq_eq_false_iff_ne, ne_eq]
        intro hcc
        exact hmem (hcc ▸ List.mem_cons_self _ _)
      have htail : '\x1b' ∉ cs' := fun hx => hmem (List.mem_cons_of_mem _ hx)
      have hlen' : cs'.length ≤ n := by
        simpa using Nat.le_of_succ_le_succ (by simpa using hlen)
      simp [stripAnsiGo, hc, ih cs' hlen' htail]

/-- Stripping is the identity on strings without the escape character. -/
theorem stripAnsi_no_esc (s : String) (h : '\x1b' ∉ s.data) :
    stripAnsi s = s := by
  unfold stripAnsi
  rw [stripAnsiGo_no_esc _ _ (Nat.le_succ _) h]

/-- C6: for a plain-string message, both renderings of a dispatched event
come from the same normalized source message: the decorated rendering is
that source itself, the plain rendering is its ANSI-stripped form — so
stripping the decorated rendering yields exactly the plain rendering — and
a message without escape characters renders identically in both forms. -/
theorem writeLog_renderings (st : LState) (type : String) (s : String)
    (data : List String) (time uptime : Nat) (ev : LogEvent)
    (h : (writeLog st type (some (.str s)) data time uptime).event = some ev) :
    ev.cmsg = (if s = "" then "No message" else s) ∧
    ev.msg = stripAnsi ev.cmsg ∧
    ('\x1b' ∉ s.data → ev.msg = ev.cmsg) := by
  simp only [writeLog] at h
  split at h
  · exact Option.noConfusion h
  · obtain rfl : ev = mkEvent type (some (.str s)) data time uptime :=
      (Option.some.inj h).symm
    by_cases hs : s = ""
    · subst hs
      refine ⟨rfl, rfl, fun _ => rfl⟩
    · have hb : (s == "") = false := by simpa using hs
      have hcm : mkEvent type (some (.str s)) data time uptime =
          { type := type, msg := stripAnsi s, cmsg := s, data := data,
            time := time, uptime := uptime } := by
        simp [mkEvent, normMsg, truthyOptMsg, hb]
      rw [hcm]
      refine ⟨by simp [hs], rfl, fun hesc => ?_⟩
      simpa using stripAnsi_no_esc s hesc

/-- Witness for C6 at a colored message, and the no-escape case at a plain
one. -/
theorem writeLog_renderings_witness :
    (writeLog ⟨7, false, 6, []⟩ "info"
        (some (.str "\x1b[31mred\x1b[0m")) [] 0 0).event =
      some (mkEvent "info" (some (.str "\x1b[31mred\x1b[0m")) [] 0 0) ∧
    (mkEvent "info" (some (.str "\x1b[31mred\x1b[0m")) [] 0 0).msg =
      stripAnsi (mkEvent "info"
        (some (.str "\x1b[31mred\x1b[0m")) [] 0 0).cmsg ∧
    (mkEvent "info" (some (.str "\x1b[31mred\x1b[0m")) [] 0 0).cmsg =
      "\x1b[31mred\x1b[0m" ∧
    (mkEvent "info" (some (.str "\x1b[31mred\x1b[0m")) [] 0 0).msg = "red" ∧
    (mkEvent "sys" (some (.str "hello")) [] 0 0).msg =
      (mkEvent "sys" (some (.str "hello")) [] 0 0).cmsg := by
  have h1 := writeLog_renderings ⟨7, false, 6, []⟩ "info" "\x1b[31mred\x1b[0m"
    [] 0 0 (mkEvent "info" (some (.str "\x1b[31mred\x1b[0m")) [] 0 0) rfl
  have h2 := writeLog_renderings ⟨7, false, 6, []⟩ "sys" "hello"
    [] 0 0 (mkEvent "sys" (some (.str "hello")) [] 0 0) rfl
  exact ⟨rfl, h1.2.1, by decide, by decide, h2.2.2 (by decide)⟩

end Logtopus

namespace Logtopus

/-- C7: `flush()` starts a flush on exactly the registered backends exposing
the capability — backends without one are skipped, with no error, and a
failing backend is still attempted (its entry is in the gathered array) —
and the `Promise.all` aggregate reports failure iff some attempted flush
failed, success iff every attempted flush succeeded. -/
theorem flush_spec (st : LState)
    (hnodup : (st.registry.map (fun p => p.1)).Nodup) :
    (∀ p ∈ st.registry, p.2.hasFlush = true →
      (p.1, p.2.flushFails) ∈ flushArr st) ∧
    (∀ p ∈ st.registry, p.2.hasFlush = false →
      p.1 ∉ (flushArr st).map (fun q => q.1)) ∧
    (flush st = .error () ↔
      ∃ p ∈ st.registry, p.2.hasFlush = true ∧ p.2.flushFails = true) ∧
    (flush st = .ok () ↔
      ∀ p ∈ st.registry, p.2.hasFlush = true → p.2.flushFails = false) := by
  have hiff : ((flushArr st).any (fun q => q.2) = true) ↔
      ∃ p ∈ st.registry, p.2.hasFlush = true ∧ p.2.flushFails = true := by
    simp only [List.any_eq_true, flushArr, List.mem_filterMap]
    constructor
    · rintro ⟨q, ⟨x, hx, hfx⟩, hq2⟩
      by_cases hh : x.2.hasFlush = true
      · rw [if_pos hh] at hfx
        cases hfx
        exact ⟨x, hx, hh, hq2⟩
      · rw [if_neg hh] at hfx
        exact Option.noConfusion hfx
    · rintro ⟨p, hp, hh, hf⟩
      exact ⟨(p.1, p.2.flushFails), ⟨p, hp, by rw [if_pos hh]⟩, hf⟩
  refine ⟨?_, ?_, ?_, ?_⟩
  · intro p hp hh
    exact List.mem_filterMap.mpr ⟨p, hp, by rw [if_pos hh]⟩
  · intro p hp hh hmem
    obtain ⟨q, hq, hq1⟩ := List.mem_map.mp hmem
    obtain ⟨x, hx, hfx⟩ := List.mem_filterMap.mp hq
    by_cases hxf : x.2.hasFlush = true
    · rw [if_pos hxf] at hfx
      cases hfx
      have hxp : x = p :=
        List.inj_on_of_nodup_map hnodup hx hp hq1
      rw [hxp] at hxf
      rw [hxf] at hh
      exact Bool.noConfusion hh
    · rw [if_neg hxf] at hfx
      exact Option.noConfusion hfx
  · have herr : flush st = .error () ↔
        (flushArr st).any (fun q => q.2) = true := by
      unfold flush
      split
      next h => exact iff_of_true rfl h
      next h => exact iff_of_false (by simp) h
    rw [herr, hiff]
  · have hok : flush st = .ok () ↔
        (flushArr st).any (fun q => q.2) = false := by
      unfold flush
      split
      next h => exact iff_of_false (by simp) (by simp [h])
      next h => exact iff_of_true rfl (by simpa using h)
    rw [hok]
    constructor
    · intro hfalse p hp hh
      by_contra hf
      have hany : (flushArr st).any (fun q => q.2) = true :=
        hiff.mpr ⟨p, hp, hh, by simpa using hf⟩
      rw [hfalse] at hany
      exact Bool.noConfusion hany
    · intro hall
      by_contra hne
      have hany : (flushArr st).any (fun q => q.2) = true := by
        cases hcase : (flushArr st).any (fun q => q.2)
        · exact absurd hcase hne
        · rfl
      obtain ⟨p, hp, hh, hf⟩ := hiff.mp hany
      have hfalse := hall p hp hh
      rw [hfalse] at hf
      exact Bool.noConfusion hf

end Logtopus

namespace Logtopus

/-- Witness for C7: three backends — `a` flushes and fails, `b` has no flush
capability, `c` flushes and succeeds. `a` and `c` are attempted, `b` is
skipped, and the aggregate reports failure. -/
theorem flush_spec_witness :
    ("a", true) ∈ flushArr ⟨3, false, 6,
      [("a", construct ⟨1, false, true, true⟩),
       ("b", construct ⟨2, false, false, false⟩),
       ("c", construct ⟨3, false, true, false⟩)]⟩ ∧
    ("c", false) ∈ flushArr ⟨3, false, 6,
      [("a", construct ⟨1, false, true, true⟩),
       ("b", construct ⟨2, false, false, false⟩),
       ("c", construct ⟨3, false, true, false⟩)]⟩ ∧
    "b" ∉ (flushArr ⟨3, false, 6,
      [("a", construct ⟨1, false, true, true⟩),
       ("b", construct ⟨2, false, false, false⟩),
       ("c", construct ⟨3, false, true, false⟩)]⟩).map (fun q => q.1) ∧
    flush ⟨3, false, 6,
      [("a", construct ⟨1, false, true, true⟩),
       ("b", construct ⟨2, false, false, false⟩),
       ("c", construct ⟨3, false, true, false⟩)]⟩ = .error () := by
  have h := flush_spec ⟨3, false, 6,
    [("a", construct ⟨1, false, true, true⟩),
     ("b", construct ⟨2, false, false, false⟩),
     ("c", construct ⟨3, false, true, false⟩)]⟩ (by decide)
  refine ⟨?_, ?_, ?_, ?_⟩
  · exact h.1 ("a", construct ⟨1, false, true, true⟩) (by decide) rfl
  · exact h.1 ("c", construct ⟨3, false, true, false⟩) (by decide) rfl
  · exact h.2.1 ("b", construct ⟨2, false, false, false⟩) (by decide) rfl
  · exact h.2.2.1.mpr
      ⟨("a", construct ⟨1, false, true, true⟩), by decide, rfl, rfl⟩

end Logtopus

namespace Logtopus

/-- The arguments of one `writeLog` call, for reasoning about sequences of
dispatches. -/
structure WriteCall where
  type : String
  msg : Option JsMsg
  data : List String
  time : Nat
  uptime : Nat
deriving DecidableEq, Repr

/-- Run a sequence of dispatches against a state. -/
def runWrites (st : LState) (ws : List WriteCall) : LState :=
  ws.foldl (fun s w => (writeLog s w.type w.msg w.data w.time w.uptime).st) st

/-- The fan-out never renames, adds or drops registry entries. -/
theorem fanOut_keys (ev : LogEvent) (reg : List (String × Backend)) :
    (fanOut ev reg).1.map (fun p => p.1) = reg.map (fun p => p.1) := by
  induction reg with
  | nil => rfl
  | cons hd tl ih =>
    obtain ⟨n, b⟩ := hd
    by_cases hb : b.throwsOnLog = true
    · simp [fanOut, hb]
    · have hb' : b.throwsOnLog = false := by simpa using hb
      simp [fanOut, hb', ih]

/-- Only registered names are ever invoked by the fan-out. -/
theorem fanOut_invoked_subset (ev : LogEvent)
    (reg : List (String × Backend)) :
    ∀ n ∈ (fanOut ev reg).2.1, n ∈ reg.map (fun p => p.1) := by
  induction reg with
  | nil => intro n hn; exact absurd hn (by simp [fanOut])
  | cons hd tl ih =>
    obtain ⟨m, b⟩ := hd
    intro n hn
    by_cases hb : b.throwsOnLog = true
    · simp [fanOut, hb] at hn
      simp [hn]
    · have hb' : b.throwsOnLog = false := by simpa using hb
      simp only [fanOut, hb', Bool.false_eq_true, if_false, List.mem_cons]
        at hn
      rcases hn with hn | hn
      · simp [hn]
      · exact List.mem_cons_of_mem _ (ih n hn)

/-- A dispatch can change neither the threshold nor the set of registered
names. -/
theorem writeLog_fields (st : LState) (type : String) (msg : Option JsMsg)
    (data : List String) (time uptime : Nat) :
    (writeLog st type msg data time uptime).st.logLevel = st.logLevel ∧
    (writeLog st type msg data time uptime).st.registry.map (fun p => p.1) =
      st.registry.map (fun p => p.1) := by
  unfold writeLog
  by_cases hc : (truthyOptNat (rankOf type) &&
      decide ((rankOf type).getD 0 > st.logLevel)) = true
  · simp [hc]
  · simp [hc, fanOut_keys]

/-- Registry membership tests only look at the keys. -/
theorem hasKey_eq_keys (reg : List (String × Backend)) (n : String) :
    hasKey reg n = (reg.map (fun p => p.1)).any (fun k => k == n) := by
  induction reg with
  | nil => rfl
  | cons hd tl ih =>
    simp only [hasKey, List.map_cons, List.any_cons] at ih ⊢
    rw [ih]

/-- Running any dispatch sequence preserves the registered names. -/
theorem runWrites_keys (ws : List WriteCall) (st : LState) :
    (runWrites st ws).registry.map (fun p => p.1) =
      st.registry.map (fun p => p.1) := by
  induction ws generalizing st with
  | nil => rfl
  | cons w ws ih =>
    exact (ih _).trans (writeLog_fields st w.type w.msg w.data w.time
      w.uptime).2

/-- Running any dispatch sequence preserves the threshold. -/
theorem runWrites_logLevel (ws : List WriteCall) (st : LState) :
    (runWrites st ws).logLevel = st.logLevel := by
  induction ws generalizing st with
  | nil => rfl
  | cons w ws ih =>
    exact (ih _).trans (writeLog_fields st w.type w.msg w.data w.time
      w.uptime).1

/-- Whether a dispatch emits depends only on the threshold, not on the
registry or other state. -/
theorem writeLog_emits_congr (st st' : LState) (w : WriteCall)
    (h : st'.logLevel = st.logLevel) :
    (writeLog st' w.type w.msg w.data w.time w.uptime).event.isSome =
      (writeLog st w.type w.msg w.data w.time w.uptime).event.isSome := by
  unfold writeLog
  rw [h]
  by_cases hc : (truthyOptNat (rankOf w.type) &&
      decide ((rankOf w.type).getD 0 > st.logLevel)) = true
  · simp [hc]
  · simp [hc]

end Logtopus

namespace Logtopus

/-- With well-behaved backends, a registered backend's recorded-event count
grows by exactly one per dispatch that passes the threshold filter. -/
theorem runWrites_count (ws : List WriteCall) (st : LState) (b : Backend)
    (name : String)
    (hok : ∀ p ∈ st.registry, p.2.throwsOnLog = false)
    (hfind : st.registry.find? (fun p => p.1 == name) = some (name, b)) :
    ∃ b', (runWrites st ws).registry.find? (fun p => p.1 == name) =
        some (name, b') ∧
      b'.logged.length = b.logged.length + ws.countP (fun w =>
        (writeLog st w.type w.msg w.data w.time w.uptime).event.isSome) := by
  induction ws generalizing st b with
  | nil => exact ⟨b, hfind, by simp [runWrites]⟩
  | cons w ws ih =>
    by_cases hc : (truthyOptNat (rankOf w.type) &&
        decide ((rankOf w.type).getD 0 > st.logLevel)) = true
    · have hskip : writeLog st w.type w.msg w.data w.time w.uptime =
          ⟨st, none, [], false⟩ := by
        unfold writeLog
        simp [hc]
      have hrun : runWrites st (w :: ws) = runWrites st ws := by
        simp [runWrites, List.foldl_cons, hskip]
      have hemit :
          (writeLog st w.type w.msg w.data w.time w.uptime).event.isSome =
            false := by
        rw [hskip]
        rfl
      obtain ⟨b', h1, h2⟩ := ih st b hok hfind
      refine ⟨b', by rw [hrun]; exact h1, ?_⟩
      rw [List.countP_cons]
      simp only [hemit, Bool.false_eq_true, if_false, Nat.add_zero]
      exact h2
    · have hguard : (truthyOptNat (rankOf w.type) &&
          decide ((rankOf w.type).getD 0 > st.logLevel)) = false := by
        simpa using hc
      have hw := writeLog_emit st w.type w.msg w.data w.time w.uptime hok
        hguard
      have hemit :
          (writeLog st w.type w.msg w.data w.time w.uptime).event.isSome =
            true := by
        rw [hw]
        rfl
      have hst : (writeLog st w.type w.msg w.data w.time w.uptime).st =
          { st with registry := st.registry.map (fun p =>
              (p.1, { p.2 with logged := p.2.logged ++
                [mkEvent w.type w.msg w.data w.time w.uptime] })) } := by
        rw [hw]
      have hok' : ∀ p ∈
          (writeLog st w.type w.msg w.data w.time w.uptime).st.registry,
          p.2.throwsOnLog = false := by
        rw [hst]
        intro p hp
        simp only [List.mem_map] at hp
        obtain ⟨q, hq, rfl⟩ := hp
        exact hok q hq
      have hfind' :
          (writeLog st w.type w.msg w.data w.time
              w.uptime).st.registry.find? (fun p => p.1 == name) =
            some (name, { b with logged := b.logged ++
              [mkEvent w.type w.msg w.data w.time w.uptime] }) := by
        rw [hst]
        show (st.registry.map (fun p =>
          (p.1, { p.2 with logged := p.2.logged ++
            [mkEvent w.type w.msg w.data w.time w.uptime] }))).find?
            (fun p => p.1 == name) = _
        have hco : ((fun p => p.1 == name) ∘
            (fun p : String × Backend =>
              (p.1, { p.2 with logged := p.2.logged ++
                [mkEvent w.type w.msg w.data w.time w.uptime] }))) =
            (fun p : String × Backend => p.1 == name) := by
          funext p
          rfl
        rw [List.find?_map, hco, hfind]
        rfl
      obtain ⟨b', h1, h2⟩ :=
        ih ((writeLog st w.type w.msg w.data w.time w.uptime).st)
          { b with logged := b.logged ++
            [mkEvent w.type w.msg w.data w.time w.uptime] } hok' hfind'
      have hll :
          (writeLog st w.type w.msg w.data w.time w.uptime).st.logLevel =
            st.logLevel :=
        (writeLog_fields st w.type w.msg w.data w.time w.uptime).1
      have hcount : ws.countP (fun w' =>
            (writeLog ((writeLog st w.type w.msg w.data w.time w.uptime).st)
              w'.type w'.msg w'.data w'.time w'.uptime).event.isSome) =
          ws.countP (fun w' =>
            (writeLog st w'.type w'.msg w'.data w'.time
              w'.uptime).event.isSome) := by
        apply List.countP_congr
        intro w' _
        rw [writeLog_emits_congr st _ w' hll]
      refine ⟨b', h1, ?_⟩
      rw [hcount] at h2
      rw [List.countP_cons]
      simp only [hemit, if_true, List.length_append, List.length_cons,
        List.length_nil] at h2 ⊢
      omega

end Logtopus

namespace Logtopus

/-- C8: `removeLogger` on an unregistered name is a no-op that never fails;
after removing a registered name, no later dispatch can invoke it (the name
leaves the registry for good and dispatches only invoke registered names);
and while registered, a well-behaved backend records exactly one event per
dispatch passing the threshold filter — so a backend that recorded `N`
events before its removal still holds exactly `N` afterwards. -/
theorem removeLogger_spec (st : LState) (name : String) (ws : List WriteCall)
    (b : Backend) :
    (hasKey st.registry name = false → removeLogger st name = st) ∧
    hasKey (runWrites (removeLogger st name) ws).registry name = false ∧
    (∀ (st' : LState) (w : WriteCall),
      name ∈ (writeLog st' w.type w.msg w.data w.time w.uptime).invoked →
      hasKey st'.registry name = true) ∧
    ((∀ p ∈ st.registry, p.2.throwsOnLog = false) →
      st.registry.find? (fun p => p.1 == name) = some (name, b) →
      ∃ b', (runWrites st ws).registry.find? (fun p => p.1 == name) =
          some (name, b') ∧
        b'.logged.length = b.logged.length + ws.countP (fun w =>
          (writeLog st w.type w.msg w.data w.time
            w.uptime).event.isSome)) := by
  refine ⟨?_, ?_, ?_, fun hok hfind => runWrites_count ws st b name hok hfind⟩
  · intro h
    unfold removeLogger
    have hall : ∀ p ∈ st.registry, (!(p.1 == name)) = true := by
      intro p hp
      have h' := List.any_eq_false.mp h p hp
      simpa using h'
    rw [List.filter_eq_self.mpr hall]
  · rw [hasKey_eq_keys, runWrites_keys, ← hasKey_eq_keys]
    apply List.any_eq_false.mpr
    intro p hp
    have hmem := (List.mem_filter.mp hp).2
    simpa using hmem
  · intro st' w hmem
    simp only [writeLog] at hmem
    by_cases hc : (truthyOptNat (rankOf w.type) &&
        decide ((rankOf w.type).getD 0 > st'.logLevel)) = true
    · rw [if_pos hc] at hmem
      simp at hmem
    · rw [if_neg hc] at hmem
      have hsub := fanOut_invoked_subset
        (mkEvent w.type w.msg w.data w.time w.uptime) st'.registry name hmem
      obtain ⟨p, hp, hpeq⟩ := List.mem_map.mp hsub
      exact List.any_eq_true.mpr ⟨p, hp, by simp [hpeq]⟩

/-- Witness for C8: removing from an empty registry is a no-op; after
removing the backend `x`, a later `error` dispatch no longer sees it; while
registered, `x` records exactly one event over an `error` + `debug`
sequence at threshold 3 (only the `error` passes). -/
theorem removeLogger_spec_witness :
    removeLogger ⟨3, false, 6, []⟩ "x" = ⟨3, false, 6, []⟩ ∧
    hasKey (runWrites (removeLogger
        ⟨3, false, 6, [("x", construct ⟨1, false, false, false⟩)]⟩ "x")
      [⟨"error", some (.str "y"), [], 0, 0⟩]).registry "x" = false ∧
    hasKey (⟨3, false, 6,
      [("x", construct ⟨1, false, false, false⟩)]⟩ : LState).registry "x" =
      true ∧
    (∃ b', (runWrites
        ⟨3, false, 6, [("x", construct ⟨1, false, false, false⟩)]⟩
        [⟨"error", some (.str "y"), [], 0, 0⟩,
         ⟨"debug", some (.str "z"), [], 0, 0⟩]).registry.find?
          (fun p => p.1 == "x") = some ("x", b') ∧
      b'.logged.length = (construct ⟨1, false, false, false⟩).logged.length +
        List.countP (fun (w : WriteCall) => (writeLog
            ⟨3, false, 6, [("x", construct ⟨1, false, false, false⟩)]⟩
            w.type w.msg w.data w.time w.uptime).event.isSome)
          [⟨"error", some (.str "y"), [], 0, 0⟩,
           ⟨"debug", some (.str "z"), [], 0, 0⟩]) := by
  refine ⟨?_, ?_, ?_, ?_⟩
  · exact (removeLogger_spec ⟨3, false, 6, []⟩ "x" []
      (construct ⟨0, false, false, false⟩)).1 rfl
  · exact (removeLogger_spec
      ⟨3, false, 6, [("x", construct ⟨1, false, false, false⟩)]⟩ "x"
      [⟨"error", some (.str "y"), [], 0, 0⟩]
      (construct ⟨1, false, false, false⟩)).2.1
  · exact (removeLogger_spec
      ⟨3, false, 6, [("x", construct ⟨1, false, false, false⟩)]⟩ "x" []
      (construct ⟨1, false, false, false⟩)).2.2.1
      ⟨3, false, 6, [("x", construct ⟨1, false, false, false⟩)]⟩
      ⟨"error", some (.str "y"), [], 0, 0⟩ (by decide)
  · exact (removeLogger_spec
      ⟨3, false, 6, [("x", construct ⟨1, false, false, false⟩)]⟩ "x"
      [⟨"error", some (.str "y"), [], 0, 0⟩,
       ⟨"debug", some (.str "z"), [], 0, 0⟩]
      (construct ⟨1, false, false, false⟩)).2.2.2 (by decide) (by decide)

end Logtopus
